import Mathlib

/-!
Verification of the bob-deploy help-queue core.

The development shallowly embeds two layers of the source:

* namespace `HQ` embeds the queue engine `HelpQueueV2` from
  `src/help-queue/help-queue.ts` (openQueue, closeQueue, enqueue, dequeue).
  Timestamps (`Date` objects) are embedded as natural numbers; the mutable
  object state is threaded explicitly; a rejected promise becomes
  `Except.error`.

* namespace `AS` embeds the orchestrator `AttendingServerV2`
  (`dequeueFirst`, `openAllOpenableQueues`, `closeAllClosableQueues`,
  `announceToStudentsInQueue`).  The orchestrator calls a per-helper queue
  variant (openQueue/closeQueue/dequeueWithHelper taking a member) whose
  source is not among the provided files; those queue operations are
  modelled from the specification and marked as such in their doc comments.

Discord I/O (rendering, voice-channel permission overwrites, direct
messages) is not part of the queue state; message sends are recorded as
values where a claim depends on who receives what.
-/

namespace HQ

/-- A waiting student (`Helpee` in `models/member-states`): the opaque member
handle is embedded as a string id, `waitStart` as a natural-number
timestamp. -/
structure Helpee where
  memberId : String
  waitStart : Nat
deriving DecidableEq, Repr

/-- A helper (`Helper` in `models/member-states`): `helpStart` and `helpEnd`
are optional timestamps, `helpedMembers` the list of served member ids. -/
structure Helper where
  memberId : String
  helpStart : Option Nat
  helpEnd : Option Nat
  helpedMembers : List String
deriving DecidableEq, Repr

/-- The distinct `QueueError` messages raised by `HelpQueueV2`, embedded as
an inductive kind.  `notHosting` is the message `You are not currently
hosting.`, `noPermission` the message thrown by `dequeue`, `noOneInQueue`
the empty-queue message. -/
inductive QueueErrorKind
  | alreadyOpen
  | notHosting
  | notOpen
  | noOneInQueue
  | noPermission
deriving DecidableEq, Repr

/-- A `QueueError` carries its kind (message) and the offending queue name. -/
structure QueueError where
  kind : QueueErrorKind
  queueName : String
deriving DecidableEq, Repr

/-- The state of one `HelpQueueV2` from `src/help-queue/help-queue.ts`:
queue name, the helper set (`Set<Helper>`, embedded as a list), the ordered
student list, and the `isOpen` flag. -/
structure HelpQueueV2 where
  queueName : String
  helpers : List Helper
  students : List Helpee
  isOpen : Bool
deriving DecidableEq, Repr

/-- Embedding of `HelpQueueV2.openQueue` (no helper parameter): throws
`alreadyOpen` when `isOpen`, otherwise sets `isOpen` and stamps
`helpStart = now` for every helper currently in the set. -/
def openQueue (q : HelpQueueV2) (now : Nat) : Except QueueError HelpQueueV2 :=
  if q.isOpen then
    .error ⟨.alreadyOpen, q.queueName⟩
  else
    .ok { q with
            isOpen := true,
            helpers := q.helpers.map fun h => { h with helpStart := some now } }

/-- Embedding of `HelpQueueV2.closeQueue` as written in the source: the
guard tests `if (this.isOpen)` and throws the not-hosting error, so the
error fires exactly when the queue is Open; the fall-through branch sets
`isOpen = false` (a no-op, it is already false) and stamps
`helpEnd = now` for every helper. -/
def closeQueue (q : HelpQueueV2) (now : Nat) : Except QueueError HelpQueueV2 :=
  if q.isOpen then
    .error ⟨.notHosting, q.queueName⟩
  else
    .ok { q with
            isOpen := false,
            helpers := q.helpers.map fun h => { h with helpEnd := some now } }

/-- Embedding of `HelpQueueV2.enqueue`: throws `notOpen` when the queue is
closed, otherwise stamps `waitStart = now` on the student and pushes it at
the tail.  The source performs no duplicate-membership check. -/
def enqueue (q : HelpQueueV2) (memberId : String) (now : Nat) :
    Except QueueError HelpQueueV2 :=
  if !q.isOpen then
    .error ⟨.notOpen, q.queueName⟩
  else
    .ok { q with students := q.students ++ [⟨memberId, now⟩] }

/-- Embedding of `HelpQueueV2.dequeue`: throws `noPermission` when the
helper is not in the helper set, `noOneInQueue` when the student list is
empty; otherwise shifts the first student off the list, pushes its member
onto the helper's `helpedMembers`, and (in the embedding) returns the
removed student alongside the new state. -/
def dequeue (q : HelpQueueV2) (helperId : String) :
    Except QueueError (HelpQueueV2 × Helpee) :=
  if !(q.helpers.any fun h => h.memberId == helperId) then
    .error ⟨.noPermission, q.queueName⟩
  else
    match q.students with
    | [] => .error ⟨.noOneInQueue, q.queueName⟩
    | firstStudent :: rest =>
      .ok ({ q with
               students := rest,
               helpers := q.helpers.map fun h =>
                 if h.memberId == helperId then
                   { h with helpedMembers := h.helpedMembers ++ [firstStudent.memberId] }
                 else h },
           firstStudent)

/-- A queue operation for reasoning about operation sequences: an enqueue of
a member or a dequeue by a helper. -/
inductive QOp
  | enq (memberId : String)
  | deq (helperId : String)
deriving DecidableEq, Repr

/-- One operation applied to a queue at clock time `c`; a rejected operation
leaves the state unchanged.  Returns the new state and the list (empty or
singleton) of students removed by the operation. -/
def stepOp (q : HelpQueueV2) (c : Nat) : QOp → HelpQueueV2 × List Helpee
  | .enq m =>
    match enqueue q m c with
    | .ok q2 => (q2, [])
    | .error _ => (q, [])
  | .deq h =>
    match dequeue q h with
    | .ok (q2, s) => (q2, [s])
    | .error _ => (q, [])

/-- Runs a sequence of operations with a strictly increasing clock (every
real clock is monotone across successive `new Date()` calls; strict growth
is the discrete embedding of time passing).  Returns the final state, the
final clock, and the students dequeued, in dequeue order. -/
def runOps (q : HelpQueueV2) (c : Nat) : List QOp → HelpQueueV2 × Nat × List Helpee
  | [] => (q, c, [])
  | op :: rest =>
    let s := stepOp q c op
    let r := runOps s.1 (c + 1) rest
    (r.1, r.2.1, s.2 ++ r.2.2)

/-- Non-decreasing `waitStart` order on students. -/
def wsLE (a b : Helpee) : Prop := a.waitStart ≤ b.waitStart

end HQ

namespace AS

/-- A waiting student as seen by the orchestrator. -/
structure Helpee where
  memberId : String
  waitStart : Nat
deriving DecidableEq, Repr

/-- Modelled from the spec: the helper record held by the per-helper queue
variant that `AttendingServerV2` calls (its `HelpQueueV2` source file is not
among the provided files).  `helpStart` is set when the helper begins
serving, `helpEnd` when it stops, `helpedMembers` lists the members it has
claimed. -/
structure MHelper where
  memberId : String
  helpStart : Nat
  helpEnd : Option Nat
  helpedMembers : List String
deriving DecidableEq, Repr

/-- The session record returned by a successful per-helper close
(`Required<Helper>`): start, end, and the served-member list. -/
structure Session where
  memberId : String
  helpStart : Nat
  helpEnd : Nat
  helpedMembers : List String
deriving DecidableEq, Repr

/-- Modelled from the spec: the state of the per-helper queue variant used
by `AttendingServerV2`: name, open flag, authorized-helper set (keyed by
member id, as in `queue.helpers.has(member.id)`), and the FIFO student
list. -/
structure MQueue where
  name : String
  isOpen : Bool
  helpers : List MHelper
  students : List Helpee
deriving DecidableEq, Repr

/-- Membership test for the authorized-helper set, keyed by member id. -/
def MQueue.hasHelper (q : MQueue) (memberId : String) : Bool :=
  q.helpers.any fun h => h.memberId == memberId

/-- The `first` accessor: head of the student list, if any. -/
def MQueue.first (q : MQueue) : Option Helpee := q.students.head?

/-- The `length` accessor: number of waiting students. -/
def MQueue.length (q : MQueue) : Nat := q.students.length

/-- Queue-level errors of the per-helper queue variant, one constructor per
spec error kind, each carrying the offending queue name. -/
inductive MQueueError
  | alreadyOpen (queueName : String)
  | notHosting (queueName : String)
  | notAuthorized (queueName : String)
  | empty (queueName : String)
deriving DecidableEq, Repr

/-- Modelled from the spec: per-helper `openQueue` — fails with
`AlreadyOpen` if already Open; on success stamps `helpStart = now` for the
opening helper and adds it to the authorized-helper set if absent. -/
def MQueue.openQ (q : MQueue) (memberId : String) (now : Nat) :
    Except MQueueError MQueue :=
  if q.isOpen then
    .error (.alreadyOpen q.name)
  else if q.hasHelper memberId then
    .ok { q with
            isOpen := true,
            helpers := q.helpers.map fun h =>
              if h.memberId == memberId then { h with helpStart := now } else h }
  else
    .ok { q with
            isOpen := true,
            helpers := q.helpers ++ [⟨memberId, now, none, []⟩] }

/-- Modelled from the spec: per-helper `closeQueue` — fails with
`NotHosting` if the given helper is not in the authorized set or the queue
is not Open; on success stamps that helper's `helpEnd = now` and returns
the closed helper's session (start, end, served list). -/
def MQueue.closeQ (q : MQueue) (memberId : String) (now : Nat) :
    Except MQueueError (MQueue × Session) :=
  if !q.isOpen then
    .error (.notHosting q.name)
  else
    match q.helpers.find? (fun h => h.memberId == memberId) with
    | none => .error (.notHosting q.name)
    | some h =>
      .ok ({ q with
               isOpen := false,
               helpers := q.helpers.map fun h2 =>
                 if h2.memberId == memberId then { h2 with helpEnd := some now } else h2 },
           ⟨memberId, h.helpStart, now, h.helpedMembers⟩)

/-- Modelled from the spec: per-helper `dequeueWithHelper` (the spec's
`dequeueNext`) — fails with `NotAuthorized` if the helper is not in the
authorized set, `Empty` if the waiting list is empty; otherwise removes and
returns the head requester and appends it to the helper's served list. -/
def MQueue.dequeueWithHelper (q : MQueue) (memberId : String) :
    Except MQueueError (MQueue × Helpee) :=
  if !q.hasHelper memberId then
    .error (.notAuthorized q.name)
  else
    match q.students with
    | [] => .error (.empty q.name)
    | s :: rest =>
      .ok ({ q with
               students := rest,
               helpers := q.helpers.map fun h =>
                 if h.memberId == memberId then
                   { h with helpedMembers := h.helpedMembers ++ [s.memberId] }
                 else h },
           s)

/-- A guild member as the orchestrator sees it: id, role names, and whether
`member.voice.channel` is non-null. -/
structure GuildMember where
  id : String
  roles : List String
  inVoiceChannel : Bool
deriving DecidableEq, Repr

/-- The distinct `ServerError` rejections of `AttendingServerV2`, one
constructor per message, plus a wrapper for a propagated queue-level
rejection and a constructor for the JavaScript `TypeError` thrown by
`Array.reduce` on an empty array with no initial value. -/
inductive ServerError
  | notCurrentlyHosting
  | needVoiceChannel
  | nothingToServe
  | noClassRoles
  | alreadyHosting
  | notAuthorizedForQueue (queueName : String)
  | queueRejected (e : MQueueError)
  | emptyReduce
deriving DecidableEq, Repr

/-- The orchestrator state: the list of queues of one server, in queue map
iteration order. -/
structure AttendingServerV2 where
  queues : List MQueue
deriving DecidableEq, Repr

/-- The reduce step of `dequeueFirst`: keep `prev` when both heads have a
defined `waitStart` and `prev` head strictly precedes `curr` head,
otherwise take `curr` — exactly the ternary in the source. -/
def pickEarlier (prev curr : MQueue) : MQueue :=
  match prev.first, curr.first with
  | some p, some c => if p.waitStart < c.waitStart then prev else curr
  | _, _ => curr

/-- The wait-start time of the head requester of a queue (0 for an empty
queue; only used on non-empty queues). -/
def headWaitStart (q : MQueue) : Nat :=
  match q.students with
  | [] => 0
  | s :: _ => s.waitStart

/-- The candidate queues of `dequeueFirst`: filter the queues by helper
membership (`currentlyHelpingChannels`) and then by being open and
non-empty (`nonEmptyQueues`), exactly as the source composes its two
filters. -/
def AttendingServerV2.candidateQueues (s : AttendingServerV2) (helperId : String) :
    List MQueue :=
  ((s.queues.filter fun q => q.hasHelper helperId).filter
    fun q => q.isOpen && q.length != 0)

/-- Embedding of `AttendingServerV2.dequeueFirst` on the path with no
`specificQueue` argument: reject not-hosting when the helper is in no
queue's helper set, then reject when the helper is not in a voice channel,
then reject nothing-to-serve when no hosted queue is open and non-empty,
otherwise reduce with `pickEarlier` to select the queue whose head has the
globally minimal `waitStart` and dequeue from it (the voice-channel
permission overwrite, invite, and direct message are external I/O and not
part of queue state). -/
def AttendingServerV2.dequeueFirst (s : AttendingServerV2) (helper : GuildMember) :
    Except ServerError (AttendingServerV2 × Helpee) :=
  if (s.queues.filter fun q => q.hasHelper helper.id).isEmpty then
    .error .notCurrentlyHosting
  else if !helper.inVoiceChannel then
    .error .needVoiceChannel
  else
    match s.candidateQueues helper.id with
    | [] => .error .nothingToServe
    | q0 :: qs =>
      let queueToDeq := qs.foldl pickEarlier q0
      match queueToDeq.dequeueWithHelper helper.id with
      | .error e => .error (.queueRejected e)
      | .ok (q2, student) =>
        .ok ({ queues := s.queues.map fun q => if q.name == queueToDeq.name then q2 else q },
             student)

/-- Embedding of `AttendingServerV2.openAllOpenableQueues`: the openable
queues are those whose name is among the helper's role names; with none the
call rejects with the no-class-roles error; otherwise `Promise.all` runs
`openQueue(helper)` on every openable queue — each call that succeeds
mutates its queue even when a sibling call fails, and the call as a whole
rejects with the already-hosting error when any call failed.  The result is
the new server state paired with the rejection, if any. -/
def AttendingServerV2.openAllOpenableQueues (s : AttendingServerV2)
    (helper : GuildMember) (now : Nat) : AttendingServerV2 × Option ServerError :=
  let openableQueues := s.queues.filter fun q => helper.roles.contains q.name
  if openableQueues.isEmpty then
    (s, some .noClassRoles)
  else
    let newQueues := s.queues.map fun q =>
      if helper.roles.contains q.name then
        match q.openQ helper.id now with
        | .ok q2 => q2
        | .error _ => q
      else q
    let anyFailed := openableQueues.any fun q =>
      match q.openQ helper.id now with
      | .ok _ => false
      | .error _ => true
    ({ queues := newQueues }, if anyFailed then some .alreadyHosting else none)

/-- The reduce step of `closeAllClosableQueues` as written in the source:
keep `prev` when `prev.helpEnd` is strictly greater than `curr.helpStart`
(the source compares an end time with a start time), otherwise take
`curr`. -/
def maxHelpTimeStep (prev curr : Session) : Session :=
  if prev.helpEnd > curr.helpStart then prev else curr

/-- The selection the spec (and the inline source comment) describes for
`closeAll`: the session of maximal duration `helpEnd − helpStart`, folded
in the same first-element-seeded reduce shape, for comparison against
`maxHelpTimeStep`. -/
def specMaxDurationSession (t0 : Session) (ts : List Session) : Session :=
  ts.foldl
    (fun prev curr =>
      if prev.helpEnd - prev.helpStart > curr.helpEnd - curr.helpStart then prev else curr)
    t0

/-- Embedding of `AttendingServerV2.closeAllClosableQueues`: the closable
queues are those whose name is among the helper's role names; `Promise.all`
runs `closeQueue(helper)` on each — successes mutate their queues even when
a sibling fails, and any failure rejects the whole call with the
not-currently-hosting error; otherwise the sessions are reduced with
`maxHelpTimeStep` (on an empty array that reduce throws, embedded as
`emptyReduce`) and the selected session is returned. -/
def AttendingServerV2.closeAllClosableQueues (s : AttendingServerV2)
    (helper : GuildMember) (now : Nat) :
    AttendingServerV2 × Except ServerError Session :=
  let closableQueues := s.queues.filter fun q => helper.roles.contains q.name
  let newQueues := s.queues.map fun q =>
    if helper.roles.contains q.name then
      match q.closeQ helper.id now with
      | .ok r => r.1
      | .error _ => q
    else q
  let anyFailed := closableQueues.any fun q =>
    match q.closeQ helper.id now with
    | .ok _ => false
    | .error _ => true
  if anyFailed then
    ({ queues := newQueues }, .error .notCurrentlyHosting)
  else
    match closableQueues.filterMap
        (fun q => match q.closeQ helper.id now with
                  | .ok r => some r.2
                  | .error _ => none) with
    | [] => ({ queues := newQueues }, .error .emptyReduce)
    | t0 :: ts => ({ queues := newQueues }, .ok (ts.foldl maxHelpTimeStep t0))

/-- One recorded direct message: the recipient member id and whether it was
the formatted in-queue announcement (true) or the raw broadcast message
(false). -/
structure Send where
  recipient : String
  targetedFormat : Bool
deriving DecidableEq, Repr

/-- Embedding of `AttendingServerV2.announceToStudentsInQueue`: with a
target queue, look up the queue with that name whose helper set contains
the caller, rejecting when none matches; on a match send the formatted
announcement to each of its students — and then, because the targeted
branch does not return, fall through to the unconditional broadcast that
sends the raw message to every student of every queue whose helper set
contains the caller.  Without a target queue only the broadcast runs. -/
def AttendingServerV2.announceToStudentsInQueue (s : AttendingServerV2)
    (helper : GuildMember) (targetQueue : Option String) :
    Except ServerError (List Send) :=
  let broadcast : List Send :=
    ((s.queues.filter fun q => q.hasHelper helper.id).map
      fun q => q.students.map fun st => Send.mk st.memberId false).flatten
  match targetQueue with
  | some name =>
    match s.queues.find? (fun q => q.name == name && q.hasHelper helper.id) with
    | none => .error (.notAuthorizedForQueue name)
    | some q =>
      .ok ((q.students.map fun st => Send.mk st.memberId true) ++ broadcast)
  | none => .ok broadcast

end AS

open HQ AS in
/-- Sanity example retained as a plain lemma: an open queue accepts an
enqueue and a closed one rejects it. -/
theorem hq_enqueue_sanity :
    HQ.enqueue ⟨"q0", [], [], true⟩ "bob" 2
      = .ok ⟨"q0", [], [⟨"bob", 2⟩], true⟩ := rfl

/-- C1: the claim says close succeeds on an Open queue with an authorized
helper and fails with NotHosting otherwise.  The source guard is inverted:
`closeQueue` tests `if (this.isOpen)` and throws the not-hosting error, so
it rejects exactly when the queue is Open (here: queue `math`, helper `h1`
authorized, queue Open — rejected), and on a Closed queue it runs the close
path, stamping `helpEnd` for every helper. -/
theorem c1_closeQueue_inverted_guard :
    HQ.closeQueue ⟨"math", [⟨"h1", some 1, none, []⟩], [], true⟩ 5
      = .error ⟨.notHosting, "math"⟩ ∧
    HQ.closeQueue ⟨"math", [⟨"h1", some 1, none, []⟩], [], false⟩ 5
      = .ok ⟨"math", [⟨"h1", some 1, some 5, []⟩], [], false⟩ :=
  ⟨rfl, rfl⟩

/-- C4: enqueue on a Closed queue always fails with the not-open error; in
this functional embedding the error result carries no successor state, so
no mutation is committed on failure. -/
theorem c4_enqueue_closed_fails (q : HQ.HelpQueueV2) (memberId : String) (now : Nat)
    (h : q.isOpen = false) :
    HQ.enqueue q memberId now = .error ⟨.notOpen, q.queueName⟩ := by
  simp [HQ.enqueue, h]

/-- C4 witness: a concrete closed queue rejects an enqueue. -/
theorem c4_enqueue_closed_fails_witness :
    HQ.enqueue ⟨"calc", [], [⟨"ann", 0⟩], false⟩ "bob" 9
      = .error ⟨.notOpen, "calc"⟩ :=
  c4_enqueue_closed_fails ⟨"calc", [], [⟨"ann", 0⟩], false⟩ "bob" 9 rfl

/-- C5 counterexample: the claim says a requester already in the waiting
list is rejected with AlreadyQueued and the list is unchanged.  The source
`enqueue` has no duplicate check: enqueueing `alice`, already waiting since
time 0, on an Open queue succeeds and the list now holds `alice` twice. -/
theorem c5_counterexample_duplicate_enqueue :
    HQ.enqueue ⟨"q1", [], [⟨"alice", 0⟩], true⟩ "alice" 5
      = .ok ⟨"q1", [], [⟨"alice", 0⟩, ⟨"alice", 5⟩], true⟩ := rfl

/-- C5 amended: enqueue on an Open queue performs no membership check at
all — whether or not the requester is already waiting, it is stamped with
the current time and appended at the tail, so a requester can occur more
than once in a waiting list. -/
theorem c5_amended_no_duplicate_guard (q : HQ.HelpQueueV2) (memberId : String)
    (now : Nat) (h : q.isOpen = true) :
    HQ.enqueue q memberId now
      = .ok { q with students := q.students ++ [⟨memberId, now⟩] } := by
  simp [HQ.enqueue, h]

/-- C5 witness: the amended statement applied to a queue already holding
the same requester. -/
theorem c5_amended_no_duplicate_guard_witness :
    HQ.enqueue ⟨"q2", [], [⟨"bob", 1⟩], true⟩ "bob" 4
      = .ok ⟨"q2", [], [⟨"bob", 1⟩, ⟨"bob", 4⟩], true⟩ :=
  c5_amended_no_duplicate_guard ⟨"q2", [], [⟨"bob", 1⟩], true⟩ "bob" 4 rfl

/-- C6 counterexample: the claim says open stamps helpStart for the opening
helper only and leaves every other helper's helpStart unchanged.  The
source `openQueue` takes no helper argument and stamps every helper already
in the set: here helper `h2`, who is not opening anything, has its
`helpStart` restamped from 0 to 7, and no helper is added to the set. -/
theorem c6_counterexample_open_stamps_all :
    HQ.openQueue ⟨"q1", [⟨"h2", some 0, none, []⟩], [], false⟩ 7
      = .ok ⟨"q1", [⟨"h2", some 7, none, []⟩], [], true⟩ := rfl

/-- C6 amended: open fails with AlreadyOpen when the queue is already Open;
on success from Closed it sets the open flag and stamps `helpStart = now`
for every helper currently in the authorized set (the operation takes no
helper argument and never adds to the set), leaving every `helpEnd`
unchanged. -/
theorem c6_amended_open_behavior (q : HQ.HelpQueueV2) (now : Nat) :
    (q.isOpen = true → HQ.openQueue q now = .error ⟨.alreadyOpen, q.queueName⟩) ∧
    (q.isOpen = false → HQ.openQueue q now
      = .ok { q with
                isOpen := true,
                helpers := q.helpers.map fun h => { h with helpStart := some now } }) := by
  constructor
  · intro h
    simp [HQ.openQueue, h]
  · intro h
    simp [HQ.openQueue, h]

/-- C6 witness: both branches of the amended statement at concrete
queues. -/
theorem c6_amended_open_behavior_witness :
    HQ.openQueue ⟨"a", [], [], true⟩ 3 = .error ⟨.alreadyOpen, "a"⟩ ∧
    HQ.openQueue ⟨"a", [⟨"h1", some 0, some 2, []⟩], [], false⟩ 3
      = .ok ⟨"a", [⟨"h1", some 3, some 2, []⟩], [], true⟩ :=
  ⟨(c6_amended_open_behavior ⟨"a", [], [], true⟩ 3).1 rfl,
   (c6_amended_open_behavior ⟨"a", [⟨"h1", some 0, some 2, []⟩], [], false⟩ 3).2 rfl⟩

/-- Unfolding lemma: the students dequeued by a run headed by one operation
are those removed by that operation followed by those of the rest of the
run. -/
theorem hq_runOps_cons_ds (q : HQ.HelpQueueV2) (c : Nat) (op : HQ.QOp)
    (rest : List HQ.QOp) :
    (HQ.runOps q c (op :: rest)).2.2
      = (HQ.stepOp q c op).2 ++ (HQ.runOps (HQ.stepOp q c op).1 (c + 1) rest).2.2 := rfl

/-- Invariant lemma for runs: starting from a queue whose waiting list is
sorted by `waitStart` and entirely stamped before the clock, the students a
run dequeues are sorted by `waitStart`, and each of them either was already
waiting at the start or was stamped at or after the starting clock. -/
theorem hq_runOps_fifo_aux (ops : List HQ.QOp) :
    ∀ (q : HQ.HelpQueueV2) (c : Nat),
      List.Pairwise HQ.wsLE q.students →
      (∀ s ∈ q.students, s.waitStart < c) →
      List.Pairwise HQ.wsLE (HQ.runOps q c ops).2.2 ∧
      ∀ d ∈ (HQ.runOps q c ops).2.2, d ∈ q.students ∨ c ≤ d.waitStart := by
  induction ops with
  | nil =>
    intro q c _ _
    refine ⟨List.Pairwise.nil, ?_⟩
    intro d hd
    simp [HQ.runOps] at hd
  | cons op rest ih =>
    intro q c hp hb
    have hbsucc : ∀ s ∈ q.students, s.waitStart < c + 1 :=
      fun s hs => Nat.lt_succ_of_lt (hb s hs)
    cases op with
    | enq m =>
      by_cases ho : q.isOpen = true
      · have hstep : HQ.stepOp q c (.enq m)
            = ({ q with students := q.students ++ [⟨m, c⟩] }, []) := by
          simp [HQ.stepOp, HQ.enqueue, ho]
        have hp2 : List.Pairwise HQ.wsLE (q.students ++ [(⟨m, c⟩ : HQ.Helpee)]) := by
          refine List.pairwise_append.mpr ⟨hp, List.pairwise_singleton _ _, ?_⟩
          intro a ha b hbmem
          have hbeq : b = ⟨m, c⟩ := by simpa using hbmem
          subst hbeq
          exact le_of_lt (hb a ha)
        have hb2 : ∀ s ∈ q.students ++ [(⟨m, c⟩ : HQ.Helpee)], s.waitStart < c + 1 := by
          intro s hs
          rcases List.mem_append.mp hs with h1 | h1
          · exact Nat.lt_succ_of_lt (hb s h1)
          · have hseq : s = ⟨m, c⟩ := by simpa using h1
            subst hseq
            exact Nat.lt_succ_self c
        obtain ⟨P, H⟩ :=
          ih { q with students := q.students ++ [⟨m, c⟩] } (c + 1) hp2 hb2
        refine ⟨?_, ?_⟩
        · rw [hq_runOps_cons_ds, hstep]
          simpa using P
        · intro d hd
          rw [hq_runOps_cons_ds, hstep] at hd
          simp only [List.nil_append] at hd
          rcases H d hd with h1 | h1
          · rcases List.mem_append.mp h1 with h2 | h2
            · exact Or.inl h2
            · have hdeq : d = ⟨m, c⟩ := by simpa using h2
              subst hdeq
              exact Or.inr (Nat.le_refl c)
          · exact Or.inr (Nat.le_of_succ_le h1)
      · have hstep : HQ.stepOp q c (.enq m) = (q, []) := by
          simp [HQ.stepOp, HQ.enqueue, ho]
        obtain ⟨P, H⟩ := ih q (c + 1) hp hbsucc
        refine ⟨?_, ?_⟩
        · rw [hq_runOps_cons_ds, hstep]
          simpa using P
        · intro d hd
          rw [hq_runOps_cons_ds, hstep] at hd
          simp only [List.nil_append] at hd
          rcases H d hd with h1 | h1
          · exact Or.inl h1
          · exact Or.inr (Nat.le_of_succ_le h1)
    | deq hid =>
      by_cases hperm : (q.helpers.any fun hh => hh.memberId == hid) = true
      · cases hs : q.students with
        | nil =>
          have hstep : HQ.stepOp q c (.deq hid) = (q, []) := by
            simp [HQ.stepOp, HQ.dequeue, hperm, hs]
          obtain ⟨P, H⟩ := ih q (c + 1) hp hbsucc
          refine ⟨?_, ?_⟩
          · rw [hq_runOps_cons_ds, hstep]
            simpa using P
          · intro d hd
            rw [hq_runOps_cons_ds, hstep] at hd
            simp only [List.nil_append] at hd
            rcases H d hd with h1 | h1
            · exact Or.inl (hs ▸ h1)
            · exact Or.inr (Nat.le_of_succ_le h1)
        | cons s rest' =>
          have hstep : HQ.stepOp q c (.deq hid)
              = ({ q with
                     students := rest',
                     helpers := q.helpers.map fun h =>
                       if h.memberId == hid then
                         { h with helpedMembers := h.helpedMembers ++ [s.memberId] }
                       else h }, [s]) := by
            simp [HQ.stepOp, HQ.dequeue, hperm, hs]
          have hp' : List.Pairwise HQ.wsLE (s :: rest') := hs ▸ hp
          have hp2 : List.Pairwise HQ.wsLE rest' := (List.pairwise_cons.mp hp').2
          have hsmall : ∀ t ∈ rest', HQ.wsLE s t := (List.pairwise_cons.mp hp').1
          have hb2 : ∀ t ∈ rest', t.waitStart < c + 1 := by
            intro t ht
            have : t ∈ q.students := by
              rw [hs]
              exact List.mem_cons_of_mem s ht
            exact Nat.lt_succ_of_lt (hb t this)
          have hsin : s ∈ q.students := by
            rw [hs]
            exact List.mem_cons_self s rest'
          have hslt : s.waitStart < c := hb s hsin
          obtain ⟨P, H⟩ :=
            ih { q with
                   students := rest',
                   helpers := q.helpers.map fun h =>
                     if h.memberId == hid then
                       { h with helpedMembers := h.helpedMembers ++ [s.memberId] }
                     else h } (c + 1) hp2 hb2
          refine ⟨?_, ?_⟩
          · rw [hq_runOps_cons_ds, hstep]
            simp only [List.singleton_append]
            refine List.pairwise_cons.mpr ⟨?_, P⟩
            intro d hd
            rcases H d hd with h1 | h1
            · exact hsmall d h1
            · exact le_of_lt (Nat.lt_of_lt_of_le hslt (Nat.le_of_succ_le h1))
          · intro d hd
            rw [hq_runOps_cons_ds, hstep] at hd
            simp only [List.singleton_append, List.mem_cons] at hd
            rcases hd with hdeq | hd2
            · subst hdeq
              exact Or.inl (List.mem_cons_self d rest')
            · rcases H d hd2 with h1 | h1
              · exact Or.inl (List.mem_cons_of_mem s h1)
              · exact Or.inr (Nat.le_of_succ_le h1)
      · have hstep : HQ.stepOp q c (.deq hid) = (q, []) := by
          simp [HQ.stepOp, HQ.dequeue, hperm]
        obtain ⟨P, H⟩ := ih q (c + 1) hp hbsucc
        refine ⟨?_, ?_⟩
        · rw [hq_runOps_cons_ds, hstep]
          simpa using P
        · intro d hd
          rw [hq_runOps_cons_ds, hstep] at hd
          simp only [List.nil_append] at hd
          rcases H d hd with h1 | h1
          · exact Or.inl h1
          · exact Or.inr (Nat.le_of_succ_le h1)

/-- C2: enqueue on an Open queue appends at the tail with `waitStart`
stamped at enqueue time; dequeue by an authorized helper removes exactly
the head and appends that requester's member to the helper's served list,
returning the head; and over any sequence of operations run with an
increasing clock from a sorted, fully-stamped Open queue, the students
successive dequeues remove are in non-decreasing `waitStart` order
(FIFO). -/
theorem c2_fifo_order :
    (∀ (q : HQ.HelpQueueV2) (memberId : String) (now : Nat), q.isOpen = true →
      HQ.enqueue q memberId now
        = .ok { q with students := q.students ++ [⟨memberId, now⟩] }) ∧
    (∀ (q : HQ.HelpQueueV2) (helperId : String) (s : HQ.Helpee) (rest : List HQ.Helpee),
      (q.helpers.any fun h => h.memberId == helperId) = true →
      q.students = s :: rest →
      HQ.dequeue q helperId
        = .ok ({ q with
                   students := rest,
                   helpers := q.helpers.map fun h =>
                     if h.memberId == helperId then
                       { h with helpedMembers := h.helpedMembers ++ [s.memberId] }
                     else h }, s)) ∧
    (∀ (ops : List HQ.QOp) (q : HQ.HelpQueueV2) (c : Nat),
      List.Pairwise HQ.wsLE q.students →
      (∀ s ∈ q.students, s.waitStart < c) →
      List.Pairwise HQ.wsLE (HQ.runOps q c ops).2.2) := by
  refine ⟨?_, ?_, ?_⟩
  · intro q memberId now h
    simp [HQ.enqueue, h]
  · intro q helperId s rest hperm hs
    simp [HQ.dequeue, hperm, hs]
  · intro ops q c hp hb
    exact (hq_runOps_fifo_aux ops q c hp hb).1

/-- C2 witness: all three parts at concrete inputs — a concrete enqueue, a
concrete dequeue of the head, and a sorted dequeue trace for the run
enqueue a, enqueue b, dequeue, dequeue starting from an empty open
queue. -/
theorem c2_fifo_order_witness :
    HQ.enqueue ⟨"w", [], [], true⟩ "a" 0 = .ok ⟨"w", [], [⟨"a", 0⟩], true⟩ ∧
    HQ.dequeue ⟨"w", [⟨"h", none, none, []⟩], [⟨"a", 0⟩], true⟩ "h"
      = .ok (⟨"w", [⟨"h", none, none, ["a"]⟩], [], true⟩, ⟨"a", 0⟩) ∧
    List.Pairwise HQ.wsLE
      (HQ.runOps ⟨"w", [⟨"h", none, none, []⟩], [], true⟩ 0
        [.enq "a", .enq "b", .deq "h", .deq "h"]).2.2 :=
  ⟨c2_fifo_order.1 ⟨"w", [], [], true⟩ "a" 0 rfl,
   c2_fifo_order.2.1 ⟨"w", [⟨"h", none, none, []⟩], [⟨"a", 0⟩], true⟩ "h" ⟨"a", 0⟩ [] rfl rfl,
   c2_fifo_order.2.2 [.enq "a", .enq "b", .deq "h", .deq "h"]
     ⟨"w", [⟨"h", none, none, []⟩], [], true⟩ 0 List.Pairwise.nil
     (by intro s hs; simp at hs)⟩

/-- A non-nil list is not `isEmpty`. -/
theorem list_isEmpty_false_of_ne_nil {α : Type} {l : List α} (h : l ≠ []) :
    l.isEmpty = false := by
  cases l with
  | nil => exact absurd rfl h
  | cons a t => rfl

/-- The reduce step of cross-queue selection returns one of its two
arguments. -/
theorem as_pickEarlier_eq_or (p c : AS.MQueue) :
    AS.pickEarlier p c = p ∨ AS.pickEarlier p c = c := by
  rcases hp : p.first with _ | vp <;> rcases hc : c.first with _ | vc <;>
    simp [AS.pickEarlier, hp, hc]
  by_cases h : vp.waitStart < vc.waitStart <;> simp [h]

/-- On a non-empty queue, `first` is the head student and `headWaitStart`
its wait start. -/
theorem as_headWaitStart_cons (q : AS.MQueue) (st : AS.Helpee) (rest : List AS.Helpee)
    (h : q.students = st :: rest) :
    q.first = some st ∧ AS.headWaitStart q = st.waitStart := by
  simp [AS.MQueue.first, AS.headWaitStart, h]

/-- On two non-empty queues the reduce step selects a queue whose head wait
start is minimal among the two. -/
theorem as_pickEarlier_min (p c : AS.MQueue) (hp : p.students ≠ []) (hc : c.students ≠ []) :
    AS.headWaitStart (AS.pickEarlier p c) ≤ AS.headWaitStart p ∧
    AS.headWaitStart (AS.pickEarlier p c) ≤ AS.headWaitStart c := by
  rcases List.exists_cons_of_ne_nil hp with ⟨sp, rp, hsp⟩
  rcases List.exists_cons_of_ne_nil hc with ⟨sc, rc, hsc⟩
  obtain ⟨hfp, hwp⟩ := as_headWaitStart_cons p sp rp hsp
  obtain ⟨hfc, hwc⟩ := as_headWaitStart_cons c sc rc hsc
  have hpe : AS.pickEarlier p c = if sp.waitStart < sc.waitStart then p else c := by
    unfold AS.pickEarlier
    rw [hfp, hfc]
  rw [hpe]
  by_cases hlt : sp.waitStart < sc.waitStart
  · rw [if_pos hlt, hwp, hwc]
    exact ⟨le_refl _, le_of_lt hlt⟩
  · rw [if_neg hlt, hwp, hwc]
    exact ⟨le_of_not_lt hlt, le_refl _⟩

/-- The fold of the reduce step stays inside the candidate list. -/
theorem as_foldl_pickEarlier_mem (qs : List AS.MQueue) :
    ∀ q0, qs.foldl AS.pickEarlier q0 ∈ q0 :: qs := by
  induction qs with
  | nil => intro q0; simp [List.foldl]
  | cons c qs ih =>
    intro q0
    rw [List.foldl_cons]
    have h := ih (AS.pickEarlier q0 c)
    rcases List.mem_cons.mp h with he | hm
    · rcases as_pickEarlier_eq_or q0 c with hpc | hpc
      · rw [he, hpc]; exact List.mem_cons_self _ _
      · rw [he, hpc]; exact List.mem_cons_of_mem _ (List.mem_cons_self _ _)
    · exact List.mem_cons_of_mem _ (List.mem_cons_of_mem _ hm)

/-- The fold of the reduce step over non-empty queues selects a queue of
globally minimal head wait start. -/
theorem as_foldl_pickEarlier_min (qs : List AS.MQueue) :
    ∀ q0, q0.students ≠ [] → (∀ q ∈ qs, q.students ≠ []) →
      AS.headWaitStart (qs.foldl AS.pickEarlier q0) ≤ AS.headWaitStart q0 ∧
      ∀ q ∈ qs, AS.headWaitStart (qs.foldl AS.pickEarlier q0) ≤ AS.headWaitStart q := by
  induction qs with
  | nil =>
    intro q0 _ _
    exact ⟨le_refl _, by intro q hq; simp at hq⟩
  | cons c qs ih =>
    intro q0 h0 hall
    have hc : c.students ≠ [] := hall c (List.mem_cons_self _ _)
    have hpcne : (AS.pickEarlier q0 c).students ≠ [] := by
      rcases as_pickEarlier_eq_or q0 c with h | h <;> rw [h]
      · exact h0
      · exact hc
    have hrest : ∀ q ∈ qs, q.students ≠ [] :=
      fun q hq => hall q (List.mem_cons_of_mem _ hq)
    obtain ⟨ha, hb⟩ := ih (AS.pickEarlier q0 c) hpcne hrest
    obtain ⟨hm0, hmc⟩ := as_pickEarlier_min q0 c h0 hc
    rw [List.foldl_cons]
    refine ⟨le_trans ha hm0, ?_⟩
    intro q hq
    rcases List.mem_cons.mp hq with he | hm
    · subst he; exact le_trans ha hmc
    · exact hb q hm

/-- Membership in the candidate list means: helper authorized, queue open,
waiting list non-empty. -/
theorem as_candidate_props (s : AS.AttendingServerV2) (hid : String) (q : AS.MQueue)
    (h : q ∈ s.candidateQueues hid) :
    q.hasHelper hid = true ∧ q.isOpen = true ∧ q.students ≠ [] := by
  unfold AS.AttendingServerV2.candidateQueues at h
  have h1 := List.mem_filter.mp h
  have h2 := List.mem_filter.mp h1.1
  have h12 := h1.2
  simp only [Bool.and_eq_true] at h12
  refine ⟨h2.2, h12.1, ?_⟩
  intro hnil
  have hlen := h12.2
  simp [AS.MQueue.length, hnil] at hlen

/-- Dequeue-with-helper on an authorized, non-empty queue removes the head,
appends it to the helper's served list, and returns it. -/
theorem as_dequeueWithHelper_cons (q : AS.MQueue) (hid : String) (st : AS.Helpee)
    (rest : List AS.Helpee) (hh : q.hasHelper hid = true) (hs : q.students = st :: rest) :
    q.dequeueWithHelper hid = .ok
      ({ q with
           students := rest,
           helpers := q.helpers.map fun h =>
             if h.memberId == hid then
               { h with helpedMembers := h.helpedMembers ++ [st.memberId] }
             else h }, st) := by
  simp [AS.MQueue.dequeueWithHelper, hh, hs]

/-- C10: cross-queue dequeue without a named queue has guards beyond the
candidate-set definition: it fails with the not-hosting rejection whenever
the helper is in no queue's helper set, and — even with candidates
available — fails with the voice-channel rejection whenever the helper is
not in a voice channel; both rejections return before any queue is
selected, so in this functional embedding no successor state exists and
nothing is dequeued. -/
theorem c10_dequeueFirst_guards (s : AS.AttendingServerV2) (helper : AS.GuildMember) :
    ((s.queues.filter fun q => q.hasHelper helper.id) = [] →
      s.dequeueFirst helper = .error .notCurrentlyHosting) ∧
    ((s.queues.filter fun q => q.hasHelper helper.id) ≠ [] →
      helper.inVoiceChannel = false →
      s.dequeueFirst helper = .error .needVoiceChannel) := by
  constructor
  · intro h
    simp [AS.AttendingServerV2.dequeueFirst, h]
  · intro h hv
    have hne := list_isEmpty_false_of_ne_nil h
    simp [AS.AttendingServerV2.dequeueFirst, hne, hv]

/-- C10 witness: a hosting-free helper is rejected as not hosting even
though a queue is open and non-empty, and a hosting helper outside any
voice channel is rejected with the voice-channel error even though its
queue is open and non-empty. -/
theorem c10_dequeueFirst_guards_witness :
    AS.AttendingServerV2.dequeueFirst ⟨[⟨"A", true, [], [⟨"s1", 0⟩]⟩]⟩ ⟨"h", ["A"], true⟩
      = .error .notCurrentlyHosting ∧
    AS.AttendingServerV2.dequeueFirst
        ⟨[⟨"A", true, [⟨"h", 0, none, []⟩], [⟨"s1", 0⟩]⟩]⟩ ⟨"h", ["A"], false⟩
      = .error .needVoiceChannel :=
  ⟨(c10_dequeueFirst_guards ⟨[⟨"A", true, [], [⟨"s1", 0⟩]⟩]⟩ ⟨"h", ["A"], true⟩).1 rfl,
   (c10_dequeueFirst_guards ⟨[⟨"A", true, [⟨"h", 0, none, []⟩], [⟨"s1", 0⟩]⟩]⟩
      ⟨"h", ["A"], false⟩).2 (by decide) rfl⟩

/-- C3 counterexample: the claim says the call fails with NothingToServe
when the candidate set is empty.  Here the candidate set is empty because
the helper hosts nothing, and the call fails with the not-hosting
rejection, which is a different error from NothingToServe. -/
theorem c3_counterexample_wrong_error :
    AS.AttendingServerV2.candidateQueues ⟨[⟨"A", true, [], [⟨"s1", 0⟩]⟩]⟩ "h" = [] ∧
    AS.AttendingServerV2.dequeueFirst ⟨[⟨"A", true, [], [⟨"s1", 0⟩]⟩]⟩ ⟨"h", ["A"], true⟩
      = .error .notCurrentlyHosting ∧
    (Except.error AS.ServerError.notCurrentlyHosting
      ≠ (Except.error AS.ServerError.nothingToServe :
          Except AS.ServerError (AS.AttendingServerV2 × AS.Helpee))) := by
  refine ⟨rfl, rfl, ?_⟩
  simp

/-- C3 amended: for a helper that hosts at least one queue and is in a
voice channel, cross-queue dequeue fails with NothingToServe exactly on an
empty candidate set; on a non-empty candidate set the reduce over
`pickEarlier` selects a candidate queue whose head has the globally minimal
`waitStart` and dequeues its head; for exactly two distinct candidates A
and B it removes from A iff A's head strictly precedes B's head, and on a
tie it deterministically removes from B (the later queue in iteration
order). -/
theorem c3_amended_selection (s : AS.AttendingServerV2) (helper : AS.GuildMember)
    (hhost : (s.queues.filter fun q => q.hasHelper helper.id) ≠ [])
    (hvoice : helper.inVoiceChannel = true) :
    (s.candidateQueues helper.id = [] →
      s.dequeueFirst helper = .error .nothingToServe) ∧
    (∀ q0 qs, s.candidateQueues helper.id = q0 :: qs →
      (qs.foldl AS.pickEarlier q0) ∈ s.candidateQueues helper.id ∧
      (∀ q ∈ s.candidateQueues helper.id,
        AS.headWaitStart (qs.foldl AS.pickEarlier q0) ≤ AS.headWaitStart q) ∧
      (∃ st rest, (qs.foldl AS.pickEarlier q0).students = st :: rest ∧
        s.dequeueFirst helper = .ok
          ({ queues := s.queues.map fun q =>
               if q.name == (qs.foldl AS.pickEarlier q0).name then
                 { qs.foldl AS.pickEarlier q0 with
                     students := rest,
                     helpers := (qs.foldl AS.pickEarlier q0).helpers.map fun h =>
                       if h.memberId == helper.id then
                         { h with helpedMembers := h.helpedMembers ++ [st.memberId] }
                       else h }
               else q }, st))) ∧
    (∀ A B, s.candidateQueues helper.id = [A, B] → A ≠ B →
      ((AS.pickEarlier A B = A ↔ AS.headWaitStart A < AS.headWaitStart B) ∧
       (AS.headWaitStart A = AS.headWaitStart B → AS.pickEarlier A B = B))) := by
  have hne := list_isEmpty_false_of_ne_nil hhost
  refine ⟨?_, ?_, ?_⟩
  · intro hc
    simp [AS.AttendingServerV2.dequeueFirst, hne, hvoice, hc]
  · intro q0 qs hc
    have hmem : (qs.foldl AS.pickEarlier q0) ∈ s.candidateQueues helper.id := by
      rw [hc]; exact as_foldl_pickEarlier_mem qs q0
    obtain ⟨hhh, _hopen, hne2⟩ := as_candidate_props s helper.id _ hmem
    have hmin : ∀ q ∈ s.candidateQueues helper.id,
        AS.headWaitStart (qs.foldl AS.pickEarlier q0) ≤ AS.headWaitStart q := by
      have h0ne : q0.students ≠ [] :=
        (as_candidate_props s helper.id q0
          (by rw [hc]; exact List.mem_cons_self _ _)).2.2
      have hallne : ∀ q ∈ qs, q.students ≠ [] := fun q hq =>
        (as_candidate_props s helper.id q
          (by rw [hc]; exact List.mem_cons_of_mem _ hq)).2.2
      obtain ⟨ha, hb⟩ := as_foldl_pickEarlier_min qs q0 h0ne hallne
      intro q hq
      rw [hc] at hq
      rcases List.mem_cons.mp hq with he | hm
      · subst he; exact ha
      · exact hb q hm
    rcases List.exists_cons_of_ne_nil hne2 with ⟨st, rest, hst⟩
    have hdeq := as_dequeueWithHelper_cons _ helper.id st rest hhh hst
    refine ⟨hmem, hmin, st, rest, hst, ?_⟩
    unfold AS.AttendingServerV2.dequeueFirst
    rw [hne]
    simp only [Bool.false_eq_true, if_false, hvoice, Bool.not_true]
    rw [hc]
    simp only []
    rw [hdeq]
  · intro A B hc hABne
    have hA := as_candidate_props s helper.id A (by rw [hc]; exact List.mem_cons_self _ _)
    have hB := as_candidate_props s helper.id B (by rw [hc]; simp)
    rcases List.exists_cons_of_ne_nil hA.2.2 with ⟨sa, ra, hsa⟩
    rcases List.exists_cons_of_ne_nil hB.2.2 with ⟨sb, rb, hsb⟩
    obtain ⟨hfa, hwa⟩ := as_headWaitStart_cons A sa ra hsa
    obtain ⟨hfb, hwb⟩ := as_headWaitStart_cons B sb rb hsb
    have hpe : AS.pickEarlier A B = if sa.waitStart < sb.waitStart then A else B := by
      unfold AS.pickEarlier
      rw [hfa, hfb]
    rw [hwa, hwb, hpe]
    constructor
    · constructor
      · intro hp
        by_contra hlt
        rw [if_neg hlt] at hp
        exact hABne hp.symm
      · intro hlt
        rw [if_pos hlt]
    · intro heq
      rw [if_neg (by rw [heq]; exact lt_irrefl _)]

/-- Sanity example: with two hosted, open, non-empty queues, the
cross-queue dequeue removes the student with the globally oldest wait
start (queue B, wait 1, beats queue A, wait 3). -/
theorem as_dequeueFirst_sanity :
    AS.AttendingServerV2.dequeueFirst
        ⟨[⟨"A", true, [⟨"h", 0, none, []⟩], [⟨"s1", 3⟩]⟩,
          ⟨"B", true, [⟨"h", 0, none, []⟩], [⟨"s2", 1⟩]⟩]⟩
        ⟨"h", ["A", "B"], true⟩
      = .ok (⟨[⟨"A", true, [⟨"h", 0, none, []⟩], [⟨"s1", 3⟩]⟩,
               ⟨"B", true, [⟨"h", 0, none, ["s2"]⟩], []⟩]⟩, ⟨"s2", 1⟩) := rfl

/-- C3 witness: the two-candidate selection clause of the amended claim at
a concrete server — two distinct hosted open non-empty queues, so the
hosting and voice-channel hypotheses are discharged concretely. -/
theorem c3_amended_selection_witness :
    (AS.pickEarlier ⟨"A", true, [⟨"h", 0, none, []⟩], [⟨"s1", 3⟩]⟩
                    ⟨"B", true, [⟨"h", 0, none, []⟩], [⟨"s2", 1⟩]⟩
        = ⟨"A", true, [⟨"h", 0, none, []⟩], [⟨"s1", 3⟩]⟩)
      ↔ (AS.headWaitStart ⟨"A", true, [⟨"h", 0, none, []⟩], [⟨"s1", 3⟩]⟩
          < AS.headWaitStart ⟨"B", true, [⟨"h", 0, none, []⟩], [⟨"s2", 1⟩]⟩) :=
  ((c3_amended_selection
      ⟨[⟨"A", true, [⟨"h", 0, none, []⟩], [⟨"s1", 3⟩]⟩,
        ⟨"B", true, [⟨"h", 0, none, []⟩], [⟨"s2", 1⟩]⟩]⟩
      ⟨"h", ["A", "B"], true⟩
      (by decide) rfl).2.2
    ⟨"A", true, [⟨"h", 0, none, []⟩], [⟨"s1", 3⟩]⟩
    ⟨"B", true, [⟨"h", 0, none, []⟩], [⟨"s2", 1⟩]⟩
    rfl (by decide)).1

/-- C7: the claim says closeAll returns the session of maximal duration
`helpEnd − helpStart`.  The source reduce compares `prev.helpEnd` against
`curr.helpStart` (an end time against a start time), which the inline
comment itself describes as an argmax over help time.  At this input —
helper `h` closing queues A (session 5..10, duration 5) and B (session
0..10, duration 10) — the code returns the A session, while the
duration-argmax the claim describes is the B session. -/
theorem c7_closeAll_wrong_reduce :
    (AS.AttendingServerV2.closeAllClosableQueues
        ⟨[⟨"A", true, [⟨"h", 5, none, []⟩], []⟩,
          ⟨"B", true, [⟨"h", 0, none, []⟩], []⟩]⟩
        ⟨"h", ["A", "B"], true⟩ 10).2
      = .ok ⟨"h", 5, 10, []⟩ ∧
    AS.specMaxDurationSession ⟨"h", 5, 10, []⟩ [⟨"h", 0, 10, []⟩] = ⟨"h", 0, 10, []⟩ ∧
    ((⟨"h", 5, 10, []⟩ : AS.Session) ≠ ⟨"h", 0, 10, []⟩) := by
  refine ⟨rfl, rfl, by decide⟩

/-- C9: the claim says a queue-scoped announcement reaches exactly the
requesters waiting in that one queue.  At this input helper `h` hosts
queues A (student s1) and B (student s2) and announces into A: the
targeted branch sends the formatted announcement to s1, but the function
then falls through to the unconditional broadcast, so s2 — waiting in B —
also receives the message, and s1 receives it twice. -/
theorem c9_announce_fall_through :
    AS.AttendingServerV2.announceToStudentsInQueue
        ⟨[⟨"A", true, [⟨"h", 0, none, []⟩], [⟨"s1", 0⟩]⟩,
          ⟨"B", true, [⟨"h", 0, none, []⟩], [⟨"s2", 0⟩]⟩]⟩
        ⟨"h", ["A", "B"], true⟩ (some "A")
      = .ok [⟨"s1", true⟩, ⟨"s1", false⟩, ⟨"s2", false⟩] ∧
    (⟨"s2", false⟩ : AS.Send) ∈ [(⟨"s1", true⟩ : AS.Send), ⟨"s1", false⟩, ⟨"s2", false⟩] :=
  ⟨rfl, by decide⟩

/-- Sanity example: the unauthorized targeted announcement is rejected,
and the untargeted announcement broadcasts to all hosted queues, as the
spec says for those two paths. -/
theorem as_announce_sanity :
    AS.AttendingServerV2.announceToStudentsInQueue
        ⟨[⟨"A", true, [⟨"h", 0, none, []⟩], [⟨"s1", 0⟩]⟩]⟩
        ⟨"g", ["A"], true⟩ (some "A")
      = .error (.notAuthorizedForQueue "A") ∧
    AS.AttendingServerV2.announceToStudentsInQueue
        ⟨[⟨"A", true, [⟨"h", 0, none, []⟩], [⟨"s1", 0⟩]⟩,
          ⟨"B", true, [⟨"h", 0, none, []⟩], [⟨"s2", 0⟩]⟩]⟩
        ⟨"h", ["A", "B"], true⟩ none
      = .ok [⟨"s1", false⟩, ⟨"s2", false⟩] :=
  ⟨rfl, rfl⟩

/-- Pointwise-equal predicates give equal `any` results. -/
theorem list_any_ext {α : Type} (l : List α) (p p2 : α → Bool) (h : ∀ a, p a = p2 a) :
    l.any p = l.any p2 := by
  induction l with
  | nil => rfl
  | cons a t ih => simp [List.any_cons, h a, ih]

/-- Mapping a member-id-preserving function over a helper list preserves
the helper-membership test. -/
theorem as_any_memberId_map (l : List AS.MHelper) (hid : String)
    (f : AS.MHelper → AS.MHelper) (hf : ∀ h, (f h).memberId = h.memberId) :
    ((l.map f).any fun h => h.memberId == hid) = (l.any fun h => h.memberId == hid) := by
  induction l with
  | nil => rfl
  | cons a t ih => simp [List.any_cons, hf a, ih]

/-- Opening a Closed queue always succeeds; the result keeps the queue
name, is Open, and has the opening helper in its set. -/
theorem as_openQ_of_closed (q : AS.MQueue) (hid : String) (now : Nat)
    (h : q.isOpen = false) :
    ∃ q2, q.openQ hid now = .ok q2 ∧ q2.name = q.name ∧ q2.isOpen = true ∧
          q2.hasHelper hid = true := by
  by_cases hh : q.hasHelper hid = true
  · refine ⟨{ q with
                isOpen := true,
                helpers := q.helpers.map fun h2 =>
                  if h2.memberId == hid then { h2 with helpStart := now } else h2 },
            ?_, rfl, rfl, ?_⟩
    · simp [AS.MQueue.openQ, h, hh]
    · unfold AS.MQueue.hasHelper at hh ⊢
      rw [as_any_memberId_map]
      · exact hh
      · intro h2
        by_cases hcmp : (h2.memberId == hid) = true <;> simp [hcmp]
  · refine ⟨{ q with
                isOpen := true,
                helpers := q.helpers ++ [⟨hid, now, none, []⟩] }, ?_, rfl, rfl, ?_⟩
    · simp only [AS.MQueue.openQ, h]
      rw [if_neg (by simp), if_neg (by simp [hh])]
    · unfold AS.MQueue.hasHelper
      simp [List.any_append]

/-- The open call of the bulk open fails exactly on a queue that is already
Open. -/
theorem as_openQ_fails_iff (q : AS.MQueue) (hid : String) (now : Nat) :
    (match q.openQ hid now with
     | .ok _ => false
     | .error _ => true) = q.isOpen := by
  cases hq : q.isOpen with
  | true => simp [AS.MQueue.openQ, hq]
  | false =>
    rcases as_openQ_of_closed q hid now hq with ⟨q2, hq2, _⟩
    rw [hq2]

/-- C8 counterexample: the claim says already-Open queues are skipped and
the batch succeeds, reporting how many transitioned.  Helper `h` has roles
for queues A (Closed) and B (already Open): the bulk open rejects the
whole call with the already-hosting error — B is not skipped — even though
A does transition to Open as a side effect; no transition count exists in
the result. -/
theorem c8_counterexample_openAll_rejects :
    AS.AttendingServerV2.openAllOpenableQueues
        ⟨[⟨"A", false, [], []⟩, ⟨"B", true, [⟨"h", 0, none, []⟩], []⟩]⟩
        ⟨"h", ["A", "B"], true⟩ 3
      = (⟨[⟨"A", true, [⟨"h", 3, none, []⟩], []⟩, ⟨"B", true, [⟨"h", 0, none, []⟩], []⟩]⟩,
         some .alreadyHosting) := rfl

/-- C8 amended: the bulk open applies to every queue whose name is among
the helper's role names; it rejects with the no-class-roles error when
there is none; when any such queue is already Open the whole call rejects
with the already-hosting error (already-Open queues are not skipped);
it reports no rejection only when every such queue was Closed; and every
Closed openable queue still transitions to Open (with the helper upserted
into its set) even when the call rejects. -/
theorem c8_amended_openAll (s : AS.AttendingServerV2) (helper : AS.GuildMember)
    (now : Nat) :
    ((s.queues.filter fun qq => helper.roles.contains qq.name) = [] →
      s.openAllOpenableQueues helper now = (s, some .noClassRoles)) ∧
    ((s.queues.filter fun qq => helper.roles.contains qq.name) ≠ [] →
      (∃ q ∈ s.queues.filter fun qq => helper.roles.contains qq.name, q.isOpen = true) →
      (s.openAllOpenableQueues helper now).2 = some .alreadyHosting) ∧
    ((s.queues.filter fun qq => helper.roles.contains qq.name) ≠ [] →
      (∀ q ∈ s.queues.filter fun qq => helper.roles.contains qq.name, q.isOpen = false) →
      (s.openAllOpenableQueues helper now).2 = none) ∧
    (∀ q ∈ s.queues.filter fun qq => helper.roles.contains qq.name, q.isOpen = false →
      ∃ q2 ∈ (s.openAllOpenableQueues helper now).1.queues,
        q2.name = q.name ∧ q2.isOpen = true ∧ q2.hasHelper helper.id = true) := by
  refine ⟨?_, ?_, ?_, ?_⟩
  · intro h
    have hem : (s.queues.filter fun qq => helper.roles.contains qq.name).isEmpty = true := by
      rw [h]
      rfl
    simp only [AS.AttendingServerV2.openAllOpenableQueues, hem, if_true]
  · intro hne0 hex
    rcases hex with ⟨q, hq, hopen⟩
    have hfail : ((s.queues.filter fun qq => helper.roles.contains qq.name).any fun qq =>
        match qq.openQ helper.id now with
        | .ok _ => false
        | .error _ => true) = true := by
      rw [list_any_ext _ _ _ (fun qq => as_openQ_fails_iff qq helper.id now)]
      exact List.any_eq_true.mpr ⟨q, hq, hopen⟩
    have hne := list_isEmpty_false_of_ne_nil hne0
    simp only [AS.AttendingServerV2.openAllOpenableQueues, hne, Bool.false_eq_true,
      if_false, hfail, if_true]
  · intro hne0 hall
    have hok : ((s.queues.filter fun qq => helper.roles.contains qq.name).any fun qq =>
        match qq.openQ helper.id now with
        | .ok _ => false
        | .error _ => true) = false := by
      rw [list_any_ext _ _ _ (fun qq => as_openQ_fails_iff qq helper.id now)]
      exact List.any_eq_false.mpr (fun q hq => by simp [hall q hq])
    have hne := list_isEmpty_false_of_ne_nil hne0
    simp only [AS.AttendingServerV2.openAllOpenableQueues, hne, Bool.false_eq_true,
      if_false, hok]
  · intro q hq hclosed
    by_cases hni : (s.queues.filter fun qq => helper.roles.contains qq.name) = []
    · rw [hni] at hq
      simp at hq
    · have hmemf := List.mem_filter.mp hq
      rcases as_openQ_of_closed q helper.id now hclosed with ⟨q2, hq2, hname, hopen2, hhash⟩
      refine ⟨q2, ?_, hname, hopen2, hhash⟩
      have hne := list_isEmpty_false_of_ne_nil hni
      simp only [AS.AttendingServerV2.openAllOpenableQueues, hne, Bool.false_eq_true,
        if_false]
      refine List.mem_map.mpr ⟨q, hmemf.1, ?_⟩
      rw [if_pos hmemf.2, hq2]

/-- C8 witness: the amended already-hosting clause at the concrete server
whose queue B is already Open. -/
theorem c8_amended_openAll_witness :
    (AS.AttendingServerV2.openAllOpenableQueues
        ⟨[⟨"A", false, [], []⟩, ⟨"B", true, [⟨"h", 0, none, []⟩], []⟩]⟩
        ⟨"h", ["A", "B"], true⟩ 3).2 = some .alreadyHosting :=
  (c8_amended_openAll
      ⟨[⟨"A", false, [], []⟩, ⟨"B", true, [⟨"h", 0, none, []⟩], []⟩]⟩
      ⟨"h", ["A", "B"], true⟩ 3).2.1 (by decide)
    ⟨⟨"B", true, [⟨"h", 0, none, []⟩], []⟩, by decide, rfl⟩
